import Mathlib

/-!
Verification development for the Rada payment system: a shallow embedding of
the payment orchestrator (paymentProcessor), the payment service
(paymentService), the wallet ledger (walletService), the M-PESA token manager
(tokenManager) and the M-PESA service, together with theorems settling the
spec claims about them.

Conventions of the embedding:
* JavaScript numbers used as monetary amounts become `Rat`.
* The five transaction status strings (uppercase in paymentProcessor,
  lowercase in paymentService) become the single enumeration `TxStatus`.
* Fallible operations return `Except AppError`; a thrown error that the
  source catches and rethrows is modelled by the rethrown value.
* Stateful code is explicit state passing over `SysState` / `WalletSvcState`.
* External collaborators (Lightning node, M-PESA gateway, the HTTP client)
  are oracle parameters giving the outcome of the single call the code makes.
-/

namespace Rada

/-- Transaction status values (PENDING, PROCESSING, COMPLETED, FAILED,
CANCELLED in paymentProcessor.js; the same five in lowercase in
paymentService.js). -/
inductive TxStatus where
  | pending
  | processing
  | completed
  | failed
  | cancelled
deriving DecidableEq, Repr

/-- Error taxonomy of utils/errors: ValidationError, NotFoundError,
PaymentError, MPESAError (each carrying its message). -/
inductive AppError where
  | validationError (msg : String)
  | notFoundError (msg : String)
  | paymentError (msg : String)
  | mpesaError (msg : String)
deriving DecidableEq, Repr

/-! ## Wallet ledger (walletService.js) -/

/-- One row of the audit_logs table as written by logBalanceOperation:
the user id, the action tag and the amount from the details blob (the
timestamp and caller metadata of the blob are not modelled). -/
structure AuditEntry where
  userId : Nat
  action : String
  amount : Rat
deriving DecidableEq, Repr

/-- The state the wallet-service claims range over, projected to one user's
wallet: the balance column of the wallets row, the cached balance entry at
key user_balance:{userId} (`none` when absent), and the audit_logs rows. -/
structure WalletSvcState where
  balance : Rat
  cache : Option Rat
  audit : List AuditEntry
deriving DecidableEq, Repr

/-- logBalanceOperation: INSERT INTO audit_logs with action
`wallet_` + operation and a details blob holding the amount.  Failures are
swallowed in the source; the insert always succeeds in the model. -/
def logBalanceOperation (userId : Nat) (operation : String) (amount : Rat)
    (st : WalletSvcState) : WalletSvcState :=
  { st with audit := st.audit ++ [{ userId := userId, action := "wallet_" ++ operation, amount := amount }] }

/-- The value creditWallet/debitWallet return: previous balance, new balance,
amount, operation tag. -/
structure BalanceResult where
  previousBalance : Rat
  newBalance : Rat
  amount : Rat
  operation : String
deriving DecidableEq, Repr

/-- getWalletBalance: cache-aside read.  On a hit the cached balance is
returned unchanged; on a miss the row is read and cached (TTL 300, expiry
not modelled: a sequence of calls is within the TTL window). -/
def getWalletBalance (st : WalletSvcState) : Rat × WalletSvcState :=
  match st.cache with
  | some b => (b, st)
  | none => (st.balance, { st with cache := some st.balance })

/-- creditWallet: reject amount ≤ 0; otherwise UPDATE wallets SET
balance = balance + amount, invalidate the cache, append the audit entry.
The returned previousBalance is computed from the post-update row as in the
source (parseFloat(wallet.balance) - amount). -/
def creditWallet (userId : Nat) (amount : Rat) (st : WalletSvcState) :
    Except AppError BalanceResult × WalletSvcState :=
  if amount ≤ 0 then
    (.error (.validationError "Credit amount must be greater than 0"), st)
  else
    let newBal := st.balance + amount
    let st1 : WalletSvcState := { st with balance := newBal, cache := none }
    let st2 := logBalanceOperation userId "credit" amount st1
    (.ok { previousBalance := newBal - amount, newBalance := newBal,
           amount := amount, operation := "credit" }, st2)

/-- debitWallet: reject amount ≤ 0; re-read the current balance through
getWalletBalance (so through the cache) and reject with the
insufficient-balance ValidationError when it is below the amount (leaving the
balance untouched; the read may have populated the cache); otherwise UPDATE
wallets SET balance = balance - amount, invalidate the cache, append the
audit entry. -/
def debitWallet (userId : Nat) (amount : Rat) (st : WalletSvcState) :
    Except AppError BalanceResult × WalletSvcState :=
  if amount ≤ 0 then
    (.error (.validationError "Debit amount must be greater than 0"), st)
  else
    let read := getWalletBalance st
    if read.1 < amount then
      (.error (.validationError "Insufficient balance"), read.2)
    else
      let newBal := read.2.balance - amount
      let st2 : WalletSvcState := { read.2 with balance := newBal, cache := none }
      let st3 := logBalanceOperation userId "debit" amount st2
      (.ok { previousBalance := newBal + amount, newBalance := newBal,
             amount := amount, operation := "debit" }, st3)

/-- A credit or debit call, for sequences of ledger operations. -/
inductive WalletOp where
  | credit (userId : Nat) (amount : Rat)
  | debit (userId : Nat) (amount : Rat)

/-- State effect of one wallet operation (its returned value discarded). -/
def applyWalletOp (op : WalletOp) (st : WalletSvcState) : WalletSvcState :=
  match op with
  | .credit u a => (creditWallet u a st).2
  | .debit u a => (debitWallet u a st).2

/-- State effect of a sequence of wallet operations. -/
def applyWalletOps : List WalletOp → WalletSvcState → WalletSvcState
  | [], st => st
  | op :: ops, st => applyWalletOps ops (applyWalletOp op st)

/-- The balance cache is absent or agrees with the stored balance.  This
holds of any state the service itself produced (it invalidates the cache on
every mutation) and is the premise under which the cache-aside read returns
the true balance. -/
def cacheCoherent (st : WalletSvcState) : Prop :=
  st.cache = none ∨ st.cache = some st.balance

/-! ## Orchestrator and payment service state -/

/-- One row of the transactions table / one Transaction model instance.
completedAtSet records whether completedAt has been stamped. -/
structure Txn where
  id : Nat
  userId : Nat
  merchantId : Nat
  amount : Rat
  status : TxStatus
  lightningInvoice : Option String
  paymentHash : Option String
  mpesaCheckoutRequestId : Option String
  errorMessage : Option String
  completedAtSet : Bool
  metadata : List (String × String)
deriving DecidableEq, Repr

/-- The shared mutable state the transaction claims range over: the
transactions table (with the next fresh id), the set of held lock keys, the
log of lightningService.payInvoice invocations (payCalls records every call
with its argument, paidOk the calls that succeeded), the wallets table as a
userId-to-balance association, and the set of user ids that currently have a
cached balance entry. -/
structure SysState where
  txns : List Txn
  nextId : Nat
  locks : List String
  payCalls : List (Option String)
  paidOk : List (Option String)
  wallets : List (Nat × Rat)
  balCacheUsers : List Nat
deriving DecidableEq, Repr

/-- Transaction.findOne / SELECT by primary key. -/
def findTxnById (s : SysState) (id : Nat) : Option Txn :=
  s.txns.find? (fun t => t.id == id)

/-- Transaction.findOne({ where: { mpesaCheckoutRequestId } }). -/
def findTxnByCheckout (s : SysState) (cid : String) : Option Txn :=
  s.txns.find? (fun t => t.mpesaCheckoutRequestId == some cid)

/-- transaction.update(...) / UPDATE transactions WHERE id: rewrite the rows
with the given id by f. -/
def updateTxn (s : SysState) (id : Nat) (f : Txn → Txn) : SysState :=
  { s with txns := s.txns.map (fun t => if t.id = id then f t else t) }

/-- SELECT balance FROM wallets WHERE user_id. -/
def walletLookup (s : SysState) (u : Nat) : Option Rat :=
  (s.wallets.find? (fun p => p.1 == u)).map (fun p => p.2)

/-- UPDATE wallets SET balance WHERE user_id. -/
def walletSet (s : SysState) (u : Nat) (b : Rat) : SysState :=
  { s with wallets := s.wallets.map (fun p => if p.1 = u then (u, b) else p) }

/-- cache.del(user_balance:{userId}). -/
def cacheDel (s : SysState) (u : Nat) : SysState :=
  { s with balCacheUsers := s.balCacheUsers.filter (fun v => v ≠ u) }

/-- Modelled from the spec: the distributed-lock utility behind getRedisLock
(utils/lock) is required by paymentProcessor.js but its source is outside the
corpus.  Per the spec contract, acquire(key, ttl) is an atomic check-and-set
returning true exactly when the key was free (fail-closed, no queueing); the
TTL bounds the hold time and is not otherwise modelled. -/
def lockAcquire (key : String) (s : SysState) : Bool × SysState :=
  if key ∈ s.locks then (false, s) else (true, { s with locks := key :: s.locks })

/-- Modelled from the spec: release(key) deletes the key only if it is still
held by the acquiring call, so a call that failed to acquire releases
nothing.  The acquired flag says whether this caller holds the key. -/
def lockRelease (key : String) (acquired : Bool) (s : SysState) : SysState :=
  if acquired then { s with locks := s.locks.erase key } else s

/-- Result of lightningService.generateInvoice. -/
structure InvoiceData where
  paymentRequest : String
  paymentHash : String
deriving DecidableEq, Repr

/-- Result of mpesaService.initiateSTKPush as consumed by the orchestrator. -/
structure StkData where
  checkoutRequestID : String
deriving DecidableEq, Repr

/-- Outcomes of the two external rail calls made by one processPayment run
(each is called at most once per run). -/
structure RailOracles where
  generateInvoice : Except String InvoiceData
  stkPush : Except String StkData
deriving Repr

/-- The lock key built by processPayment:
payment:${userId}:${Date.now()} — note it embeds the call timestamp. -/
def lockKey (userId : Nat) (now : Nat) : String :=
  "payment:" ++ toString userId ++ ":" ++ toString now

/-- Argument object of processPayment (phone not modelled: it only flows to
the STK oracle). -/
structure PaymentDetails where
  userId : Nat
  merchantId : Nat
  amount : Rat
deriving DecidableEq, Repr

/-- The value processPayment returns on success. -/
structure PayResult where
  transactionId : Nat
  checkoutRequestId : String
  paymentRequest : String
deriving DecidableEq, Repr

/-- Transaction.create({...status: PENDING}): a fresh row. -/
def newTxn (id userId merchantId : Nat) (amount : Rat) : Txn :=
  { id := id, userId := userId, merchantId := merchantId, amount := amount,
    status := .pending, lightningInvoice := none, paymentHash := none,
    mpesaCheckoutRequestId := none, errorMessage := none,
    completedAtSet := false, metadata := [] }

/-- transaction.update({ status: FAILED, errorMessage }): the row update of
the failure paths. -/
def setFailed (e : String) (u : Txn) : Txn :=
  { u with status := .failed, errorMessage := some e }

/-- transaction.update({ lightningInvoice, paymentHash }): step 3 of
processPayment. -/
def setInvoice (pr ph : String) (u : Txn) : Txn :=
  { u with lightningInvoice := some pr, paymentHash := some ph }

/-- transaction.update({ mpesaCheckoutRequestId, status: PROCESSING }):
step 5 of processPayment. -/
def setProcessing (cid : String) (u : Txn) : Txn :=
  { u with mpesaCheckoutRequestId := some cid, status := .processing }

/-- transaction.update({ status: COMPLETED, completedAt }): the callback
success path. -/
def setCompleted (u : Txn) : Txn :=
  { u with status := .completed, completedAtSet := true }

/-- The row update of updateTransactionStatus: SET status, merge metadata. -/
def setStatusMeta (st0 : TxStatus) (md : List (String × String)) (u : Txn) : Txn :=
  { u with status := st0, metadata := u.metadata ++ md }

/-- paymentProcessor.processPayment: build the per-call lock key, acquire it
(the source awaits acquire and discards its result), create the PENDING
transaction, generate the Lightning invoice, attach invoice and payment
hash, initiate the STK push, attach the checkout id and move to PROCESSING;
on any failure of the two rail calls mark the transaction FAILED with the
originating message and rethrow as PaymentError; the finally block releases
the lock on every path. -/
def processPayment (d : PaymentDetails) (now : Nat) (o : RailOracles)
    (s : SysState) : Except AppError PayResult × SysState :=
  let key := lockKey d.userId now
  let acq := lockAcquire key s
  let t := newTxn acq.2.nextId d.userId d.merchantId d.amount
  let s2 : SysState := { acq.2 with txns := acq.2.txns ++ [t], nextId := acq.2.nextId + 1 }
  match o.generateInvoice with
  | .error e =>
      let s3 := updateTxn s2 t.id (setFailed e)
      (.error (.paymentError "Payment processing failed"), lockRelease key acq.1 s3)
  | .ok inv =>
      let s3 := updateTxn s2 t.id (setInvoice inv.paymentRequest inv.paymentHash)
      match o.stkPush with
      | .error e =>
          let s4 := updateTxn s3 t.id (setFailed e)
          (.error (.paymentError "Payment processing failed"), lockRelease key acq.1 s4)
      | .ok stk =>
          let s4 := updateTxn s3 t.id (setProcessing stk.checkoutRequestID)
          (.ok { transactionId := t.id, checkoutRequestId := stk.checkoutRequestID,
                 paymentRequest := inv.paymentRequest }, lockRelease key acq.1 s4)

/-- The callback body delivered by the mobile-money gateway. -/
structure CallbackData where
  resultCode : Int
  checkoutRequestID : String
  resultDesc : String
deriving DecidableEq, Repr

/-- paymentProcessor.handleMPESACallback: look the transaction up by checkout
id (missing: log and return); on ResultCode 0 call payInvoice on the stored
invoice (the call is recorded in payCalls; its outcome is the payOutcome
oracle) and on success mark COMPLETED stamping completedAt, on a thrown
payment error mark FAILED with the message; on a nonzero ResultCode mark
FAILED with the ResultDesc.  The source performs no terminal-state check
before any of this. -/
def handleMPESACallback (cb : CallbackData) (payOutcome : Except String Unit)
    (s : SysState) : SysState :=
  match findTxnByCheckout s cb.checkoutRequestID with
  | none => s
  | some t =>
      if cb.resultCode = 0 then
        let s1 : SysState := { s with payCalls := s.payCalls ++ [t.lightningInvoice] }
        match payOutcome with
        | .ok _ =>
            let s2 : SysState := { s1 with paidOk := s1.paidOk ++ [t.lightningInvoice] }
            updateTxn s2 t.id setCompleted
        | .error e =>
            updateTxn s1 t.id (setFailed e)
      else
        updateTxn s t.id (setFailed cb.resultDesc)

/-- The validStatuses check of paymentService.updateTransactionStatus,
as a parser from the lowercase status strings: returns none exactly when the
string is not one of the five valid values. -/
def parseStatus : String → Option TxStatus
  | "pending" => some .pending
  | "processing" => some .processing
  | "completed" => some .completed
  | "failed" => some .failed
  | "cancelled" => some .cancelled
  | _ => none

/-- paymentService.updateUserBalance: conditional UPDATE of the wallets
balance column (credit adds, debit subtracts, anything else leaves it);
NotFoundError when the user has no wallet row. -/
def updateUserBalance (userId : Nat) (amount : Rat) (operation : String)
    (s : SysState) : Except AppError SysState :=
  match walletLookup s userId with
  | none => .error (.notFoundError "User wallet not found")
  | some b =>
      let nb := if operation = "credit" then b + amount
                else if operation = "debit" then b - amount
                else b
      .ok (walletSet s userId nb)

/-- paymentService.updateTransactionStatus: reject a status string outside
validStatuses; UPDATE the row (status and merged metadata), NotFoundError
when absent; when the new status is completed, credit the user balance by
the transaction amount through updateUserBalance (an error there propagates
before the cache invalidation); finally invalidate the user balance cache
and return the updated row.  No precondition on the previous status is
checked. -/
def updateTransactionStatus (transactionId : Nat) (status : String)
    (metadata : List (String × String)) (s : SysState) :
    Except AppError Txn × SysState :=
  match parseStatus status with
  | none => (.error (.validationError "Invalid transaction status"), s)
  | some st0 =>
      match findTxnById s transactionId with
      | none => (.error (.notFoundError "Transaction not found"), s)
      | some t =>
          let t1 : Txn := setStatusMeta st0 metadata t
          let s1 := updateTxn s transactionId (setStatusMeta st0 metadata)
          if status = "completed" then
            match updateUserBalance t.userId t.amount "credit" s1 with
            | .error e => (.error e, s1)
            | .ok s2 => (.ok t1, cacheDel s2 t.userId)
          else
            (.ok t1, cacheDel s1 t.userId)

/-- What a route handler sends back, as far as the claims need it. -/
inductive RouteOutcome where
  | ok (t : Txn)
  | forbidden
  | validationFailed (msg : String)
  | notFound
  | errorOut (e : AppError)
deriving DecidableEq, Repr

/-- POST /api/v1/payments/:transactionId/cancel: fetch the transaction
(NotFound when absent), reject a non-owner with forbidden, reject any status
other than pending with the validation failure, otherwise set status
cancelled through updateTransactionStatus with metadata recording who
cancelled and when (cancelledAt modelled as the now timestamp rendered to a
string). -/
def cancelTransaction (transactionId userId now : Nat) (s : SysState) :
    RouteOutcome × SysState :=
  match findTxnById s transactionId with
  | none => (.notFound, s)
  | some t =>
      if t.userId ≠ userId then (.forbidden, s)
      else if t.status ≠ .pending then
        (.validationFailed "Transaction cannot be cancelled", s)
      else
        match updateTransactionStatus transactionId "cancelled"
            [("cancelledBy", toString userId), ("cancelledAt", toString now)] s with
        | (.ok t1, s1) => (.ok t1, s1)
        | (.error e, s1) => (.errorOut e, s1)

/-- PUT /api/v1/payments/:transactionId/status: fetch the transaction, allow
the owner or a merchant, then apply updateTransactionStatus with the
caller-supplied status string and metadata — no further restriction on the
transition. -/
def updateStatusRoute (transactionId : Nat) (status : String)
    (metadata : List (String × String)) (callerId : Nat) (isMerchant : Bool)
    (s : SysState) : RouteOutcome × SysState :=
  match findTxnById s transactionId with
  | none => (.notFound, s)
  | some t =>
      if t.userId ≠ callerId ∧ ¬isMerchant then (.forbidden, s)
      else
        match updateTransactionStatus transactionId status metadata s with
        | (.ok t1, s1) => (.ok t1, s1)
        | (.error e, s1) => (.errorOut e, s1)

/-- paymentService.createPayment, projected to its effect on the
transactions table: validations (positive amount; existing active user,
supplied as the userActive oracle; the currency/method/merchant checks and
the rail sub-record inserts are not modelled as no claim mentions them),
then INSERT a pending row and invalidate the user balance cache. -/
def createPayment (userId merchantId : Nat) (amount : Rat) (userActive : Bool)
    (s : SysState) : Except AppError Txn × SysState :=
  if amount ≤ 0 then
    (.error (.validationError "Payment amount must be greater than 0"), s)
  else if ¬userActive then
    (.error (.notFoundError "User not found or inactive"), s)
  else
    let t := newTxn s.nextId userId merchantId amount
    (.ok t, cacheDel { s with txns := s.txns ++ [t], nextId := s.nextId + 1 } userId)

/-- The transaction-mutating operations of the program: creation, the
orchestrator initiation, the gateway callback, the user cancel route and the
generic status-update route. -/
inductive SysOp where
  | create (userId merchantId : Nat) (amount : Rat) (userActive : Bool)
  | initiate (d : PaymentDetails) (now : Nat) (o : RailOracles)
  | callback (cb : CallbackData) (payOutcome : Except String Unit)
  | cancel (transactionId userId now : Nat)
  | statusUpdate (transactionId : Nat) (status : String)
      (metadata : List (String × String)) (callerId : Nat) (isMerchant : Bool)

/-- Whether the operation is the generic status-update route. -/
def SysOp.isStatusUpdate : SysOp → Bool
  | .statusUpdate _ _ _ _ _ => true
  | _ => false

/-- State effect of one operation (returned values discarded). -/
def applySysOp : SysOp → SysState → SysState
  | .create u m a act, s => (createPayment u m a act s).2
  | .initiate d now o, s => (processPayment d now o s).2
  | .callback cb po, s => handleMPESACallback cb po s
  | .cancel tid uid now, s => (cancelTransaction tid uid now s).2
  | .statusUpdate tid st md c im, s => (updateStatusRoute tid st md c im s).2

/-- State effect of a sequence of operations. -/
def applySysOps : List SysOp → SysState → SysState
  | [], s => s
  | op :: ops, s => applySysOps ops (applySysOp op s)

/-- Per-transaction part of the orchestrator state-machine invariant, against
the log of successful payInvoice calls: PROCESSING needs invoice and checkout
id attached; COMPLETED needs the stored invoice to have been successfully
paid; a checkout id is only ever attached after an invoice. -/
def TxnInv (pd : List (Option String)) (t : Txn) : Prop :=
  (t.status = .processing → t.lightningInvoice.isSome ∧ t.mpesaCheckoutRequestId.isSome) ∧
  (t.status = .completed → t.lightningInvoice.isSome ∧ t.lightningInvoice ∈ pd) ∧
  (t.mpesaCheckoutRequestId.isSome → t.lightningInvoice.isSome)

/-- The orchestrator state-machine invariant: ids are below the next fresh
id and pairwise distinct, and every transaction satisfies the per-row
invariant. -/
def OrchInv (s : SysState) : Prop :=
  (∀ t ∈ s.txns, t.id < s.nextId) ∧
  s.txns.Pairwise (fun a b => a.id ≠ b.id) ∧
  (∀ t ∈ s.txns, TxnInv s.paidOk t)

/-! ## Token manager (tokenManager.js) and MPESA service -/

/-- TOKEN_EXPIRY in tokenManager.js: 3300 seconds, 55 minutes, against the
issuer's 60-minute token lifetime. -/
def TOKEN_EXPIRY : Nat := 3300

/-- The identifiers bound at module scope of tokenManager.js: its four
require lines bind Redis, promisify, MPESAError and logger, and the class
declaration binds TokenManager.  There is no binding for axios, although
fetchNewToken evaluates the identifier axios. -/
def tokenManagerModuleBindings : List String :=
  ["Redis", "promisify", "MPESAError", "logger", "TokenManager"]

/-- A cached token entry as written by redis.setex(TOKEN_KEY, ttl, token). -/
structure CacheEntry where
  token : String
  ttl : Nat
deriving DecidableEq, Repr

/-- tokenManager.fetchNewToken: were axios bound in the module, it would GET
the credential endpoint (the gateway oracle) and return the access token,
wrapping a failed request in MPESAError who message is Failed to fetch
access token; since the module never binds axios, evaluating axios.get
throws a ReferenceError, which the catch block wraps in the same MPESAError. -/
def fetchNewToken (gateway : Except String String) : Except AppError String :=
  if "axios" ∈ tokenManagerModuleBindings then
    match gateway with
    | .ok tok => .ok tok
    | .error _ => .error (.mpesaError "Failed to fetch access token")
  else
    .error (.mpesaError "Failed to fetch access token")

/-- tokenManager.getValidToken: return the cached token on a hit; on a miss
fetch a new one and cache it with TTL TOKEN_EXPIRY; any error inside is
caught and rethrown as MPESAError with message Authentication failed. -/
def getValidToken (cached : Option CacheEntry) (gateway : Except String String) :
    Except AppError String × Option CacheEntry :=
  match cached with
  | some entry => (.ok entry.token, cached)
  | none =>
      match fetchNewToken gateway with
      | .ok tok => (.ok tok, some { token := tok, ttl := TOKEN_EXPIRY })
      | .error _ => (.error (.mpesaError "Authentication failed"), none)

/-- The methods the TokenManager class of tokenManager.js defines.  getToken
is not among them. -/
def tokenManagerMethods : List String :=
  ["getValidToken", "fetchNewToken", "invalidateToken", "healthCheck"]

/-- mpesa.js getAccessToken: calls this.tokenManager.getToken().  When the
method existed its result would be returned (errors wrapped); since
TokenManager defines no getToken, the call throws a TypeError, which the
catch block wraps in MPESAError with message Authentication failed. -/
def getAccessToken (cached : Option CacheEntry) (gateway : Except String String) :
    Except AppError String :=
  if "getToken" ∈ tokenManagerMethods then
    match (getValidToken cached gateway).1 with
    | .ok tok => .ok tok
    | .error _ => .error (.mpesaError "Authentication failed")
  else
    .error (.mpesaError "Authentication failed")

/-- mpesa.js initiateSTKPush: validateSTKPushParams (the three validator
outcomes are oracle booleans: each failure throws the corresponding
ValidationError, rethrown as-is by the catch block), then getAccessToken,
then httpClient.post of the STK payload.  The returned boolean records
whether the post was reached; a non-validation error is wrapped in
MPESAError with message Failed to process payment request. -/
def initiateSTKPush (phoneValid amountValid referenceValid : Bool)
    (cached : Option CacheEntry) (gateway : Except String String) :
    Except AppError String × Bool :=
  if ¬phoneValid then (.error (.validationError "Invalid phone number format"), false)
  else if ¬amountValid then (.error (.validationError "Invalid amount"), false)
  else if ¬referenceValid then (.error (.validationError "Invalid account reference"), false)
  else
    match getAccessToken cached gateway with
    | .error _ => (.error (.mpesaError "Failed to process payment request"), false)
    | .ok _ => (.ok "response.data", true)

/-! ## Concrete fixtures for witnesses and counterexamples -/

/-- A pending transaction owned by user 7, as createPayment inserts it. -/
def pendingTxn : Txn :=
  { id := 1, userId := 7, merchantId := 2, amount := 100, status := .pending,
    lightningInvoice := none, paymentHash := none, mpesaCheckoutRequestId := none,
    errorMessage := none, completedAtSet := false, metadata := [] }

/-- A state holding pendingTxn and a wallet for user 7. -/
def pendingState : SysState :=
  { txns := [pendingTxn], nextId := 2, locks := [], payCalls := [], paidOk := [],
    wallets := [(7, 50)], balCacheUsers := [] }

/-- A PROCESSING transaction for checkout id ws_123 with invoice lnbc1
attached, owned by user 7. -/
def processingTxn : Txn :=
  { id := 1, userId := 7, merchantId := 2, amount := 100, status := .processing,
    lightningInvoice := some "lnbc1", paymentHash := some "h1",
    mpesaCheckoutRequestId := some "ws_123", errorMessage := none,
    completedAtSet := false, metadata := [] }

/-- A state holding processingTxn, a wallet for user 7 at balance 50 and a
cached balance entry for user 7. -/
def processingState : SysState :=
  { txns := [processingTxn],
    nextId := 2, locks := [], payCalls := [], paidOk := [],
    wallets := [(7, 50)], balCacheUsers := [7] }

/-- The transaction of processingState after its first success callback:
COMPLETED with completedAt stamped. -/
def completedTxn : Txn :=
  { processingTxn with status := .completed, completedAtSet := true }

/-- A state holding completedTxn whose first (already delivered) success
callback paid invoice lnbc1 once. -/
def completedState : SysState :=
  { txns := [completedTxn],
    nextId := 2, locks := [], payCalls := [some "lnbc1"], paidOk := [some "lnbc1"],
    wallets := [(7, 50)], balCacheUsers := [] }

/-- Rail oracles where both external calls succeed. -/
def okOracles : RailOracles :=
  { generateInvoice := .ok { paymentRequest := "lnbc1", paymentHash := "h1" },
    stkPush := .ok { checkoutRequestID := "ws_1" } }

/-- Rail oracles where Lightning invoice creation fails. -/
def invoiceFailOracles : RailOracles :=
  { generateInvoice := .error "Lightning network error",
    stkPush := .ok { checkoutRequestID := "ws_1" } }

/-- An empty system state apart from a wallet for user 7. -/
def emptyState : SysState :=
  { txns := [], nextId := 1, locks := [], payCalls := [], paidOk := [],
    wallets := [(7, 0)], balCacheUsers := [] }

/-- The metadata the cancel route attaches: who cancelled and when. -/
def cancelMeta (userId now : Nat) : List (String × String) :=
  [("cancelledBy", toString userId), ("cancelledAt", toString now)]

/-- A transaction as the cancel route leaves it: CANCELLED with the
cancellation metadata merged in. -/
def cancelledTxn (t : Txn) (userId now : Nat) : Txn :=
  setStatusMeta .cancelled (cancelMeta userId now) t

/-! ## Theorems: wallet ledger -/

theorem applyWalletOp_preserves (op : WalletOp) (st : WalletSvcState)
    (h0 : 0 ≤ st.balance) (hc : cacheCoherent st) :
    0 ≤ (applyWalletOp op st).balance ∧ cacheCoherent (applyWalletOp op st) := by
  cases op with
  | credit u a =>
      by_cases ha : a ≤ 0
      · simpa [applyWalletOp, creditWallet, ha] using ⟨h0, hc⟩
      · refine ⟨?_, ?_⟩
        · simp only [applyWalletOp, creditWallet, if_neg ha, logBalanceOperation]
          have : (0 : ℚ) < a := lt_of_not_ge ha
          simpa using by linarith
        · simp [applyWalletOp, creditWallet, if_neg ha, logBalanceOperation, cacheCoherent]
  | debit u a =>
      by_cases ha : a ≤ 0
      · simpa [applyWalletOp, debitWallet, ha] using ⟨h0, hc⟩
      · rcases hc with hc | hc
        · by_cases hb : st.balance < a
          · refine ⟨?_, ?_⟩ <;>
              simp [applyWalletOp, debitWallet, if_neg ha, getWalletBalance, hc, hb,
                cacheCoherent, h0]
          · refine ⟨?_, ?_⟩
            · simp only [applyWalletOp, debitWallet, if_neg ha, getWalletBalance, hc,
                if_neg hb, logBalanceOperation]
              have : a ≤ st.balance := le_of_not_lt hb
              simpa using by linarith
            · simp [applyWalletOp, debitWallet, if_neg ha, getWalletBalance, hc,
                if_neg hb, logBalanceOperation, cacheCoherent]
        · by_cases hb : st.balance < a
          · refine ⟨?_, ?_⟩ <;>
              simp [applyWalletOp, debitWallet, if_neg ha, getWalletBalance, hc, hb,
                cacheCoherent, h0]
          · refine ⟨?_, ?_⟩
            · simp only [applyWalletOp, debitWallet, if_neg ha, getWalletBalance, hc,
                if_neg hb, logBalanceOperation]
              have : a ≤ st.balance := le_of_not_lt hb
              simpa using by linarith
            · simp [applyWalletOp, debitWallet, if_neg ha, getWalletBalance, hc,
                if_neg hb, logBalanceOperation, cacheCoherent]

theorem applyWalletOps_preserves (ops : List WalletOp) (st : WalletSvcState)
    (h0 : 0 ≤ st.balance) (hc : cacheCoherent st) :
    0 ≤ (applyWalletOps ops st).balance ∧ cacheCoherent (applyWalletOps ops st) := by
  induction ops generalizing st with
  | nil => exact ⟨h0, hc⟩
  | cons op ops ih =>
      have h := applyWalletOp_preserves op st h0 hc
      exact ih (applyWalletOp op st) h.1 h.2

/-- C3: starting from a coherent state with non-negative balance, every
sequence of creditWallet/debitWallet calls keeps the balance non-negative,
and a debit of more than the current balance is rejected with the
insufficient-balance ValidationError, leaving the balance unchanged. -/
theorem wallet_balance_invariant (st : WalletSvcState)
    (h0 : 0 ≤ st.balance) (hc : cacheCoherent st) :
    (∀ ops : List WalletOp, 0 ≤ (applyWalletOps ops st).balance) ∧
    (∀ (u : Nat) (a : Rat), st.balance < a →
      (debitWallet u a st).1 = .error (.validationError "Insufficient balance") ∧
      (debitWallet u a st).2.balance = st.balance) := by
  refine ⟨fun ops => (applyWalletOps_preserves ops st h0 hc).1, fun u a hlt => ?_⟩
  have ha : ¬ a ≤ 0 := by
    intro h
    exact absurd (lt_of_le_of_lt h0 hlt) (not_lt.mpr h)
  rcases hc with hcase | hcase <;>
    simp [debitWallet, if_neg ha, getWalletBalance, hcase, hlt]

/-- C3 witness: Scenario E at balance 1000, debit 2000. -/
theorem wallet_balance_invariant_witness :
    (0 : Rat) ≤ (applyWalletOps [.credit 7 500, .debit 7 1500]
      { balance := 1000, cache := none, audit := [] }).balance ∧
    (debitWallet 7 2000 { balance := 1000, cache := none, audit := [] }).1 =
      .error (.validationError "Insufficient balance") ∧
    (debitWallet 7 2000 { balance := 1000, cache := none, audit := [] }).2.balance = 1000 := by
  have h := wallet_balance_invariant { balance := 1000, cache := none, audit := [] }
    (by norm_num) (Or.inl rfl)
  exact ⟨h.1 [.credit 7 500, .debit 7 1500], (h.2 7 2000 (by norm_num)).1,
    (h.2 7 2000 (by norm_num)).2⟩

/-- C7: crediting a positive amount and then debiting the same amount both
succeed, return the balance to its prior value, and append exactly the two
audit entries wallet_credit and wallet_debit. -/
theorem credit_debit_roundtrip (u : Nat) (a : Rat) (st : WalletSvcState)
    (h0 : 0 ≤ st.balance) (ha : 0 < a) :
    (creditWallet u a st).1.isOk = true ∧
    (debitWallet u a (creditWallet u a st).2).1.isOk = true ∧
    (debitWallet u a (creditWallet u a st).2).2.balance = st.balance ∧
    (debitWallet u a (creditWallet u a st).2).2.audit =
      st.audit ++ [{ userId := u, action := "wallet_credit", amount := a },
                   { userId := u, action := "wallet_debit", amount := a }] := by
  have ha' : ¬ a ≤ 0 := not_le.mpr ha
  have hnb : ¬ st.balance + a < a := by
    intro h
    exact absurd (by linarith : st.balance < 0) (not_lt.mpr h0)
  refine ⟨?_, ?_, ?_, ?_⟩ <;>
    simp [creditWallet, debitWallet, if_neg ha', getWalletBalance, logBalanceOperation,
      hnb, Except.isOk, Except.toBool]

/-- C7 witness: balance 1000, amount 250. -/
theorem credit_debit_roundtrip_witness :
    (creditWallet 7 250 { balance := 1000, cache := none, audit := [] }).1.isOk = true ∧
    (debitWallet 7 250
      (creditWallet 7 250 { balance := 1000, cache := none, audit := [] }).2).1.isOk = true ∧
    (debitWallet 7 250
      (creditWallet 7 250 { balance := 1000, cache := none, audit := [] }).2).2.balance = 1000 ∧
    (debitWallet 7 250
      (creditWallet 7 250 { balance := 1000, cache := none, audit := [] }).2).2.audit =
      [] ++ [{ userId := 7, action := "wallet_credit", amount := 250 },
             { userId := 7, action := "wallet_debit", amount := 250 }] :=
  credit_debit_roundtrip 7 250 { balance := 1000, cache := none, audit := [] }
    (by norm_num) (by norm_num)

/-! ## Theorems: token manager and MPESA service -/

/-- C8 (code evaluated at the failing input): getValidToken does return the
cached token on a cache hit, but on a cache miss — for every outcome of the
credential endpoint, including a successful one — it raises
MPESAError Authentication failed instead of caching and returning a token,
because fetchNewToken evaluates the identifier axios, which tokenManager.js
never binds. -/
theorem getValidToken_miss_always_fails :
    (∀ (e : CacheEntry) (gw : Except String String),
      getValidToken (some e) gw = (.ok e.token, some e)) ∧
    (∀ gw : Except String String,
      getValidToken none gw = (.error (.mpesaError "Authentication failed"), none)) := by
  refine ⟨fun e gw => rfl, fun gw => ?_⟩
  have hax : "axios" ∉ tokenManagerModuleBindings := by decide
  simp [getValidToken, fetchNewToken, hax]

/-- C10: getAccessToken calls this.tokenManager.getToken(), which TokenManager
does not define, so it raises MPESAError Authentication failed for every
cache and gateway state, and initiateSTKPush never reaches the point of
sending the collection request (its post flag is false for every input). -/
theorem getAccessToken_always_fails :
    (∀ (cached : Option CacheEntry) (gw : Except String String),
      getAccessToken cached gw = .error (.mpesaError "Authentication failed")) ∧
    (∀ (pv av rv : Bool) (cached : Option CacheEntry) (gw : Except String String),
      (initiateSTKPush pv av rv cached gw).2 = false ∧
      (initiateSTKPush pv av rv cached gw).1.isOk = false) := by
  have hm : "getToken" ∉ tokenManagerMethods := by decide
  have hacc : ∀ (cached : Option CacheEntry) (gw : Except String String),
      getAccessToken cached gw = .error (.mpesaError "Authentication failed") := by
    intro cached gw
    simp [getAccessToken, hm]
  refine ⟨hacc, fun pv av rv cached gw => ?_⟩
  by_cases h1 : pv <;> by_cases h2 : av <;> by_cases h3 : rv <;>
    simp [initiateSTKPush, h1, h2, h3, hacc, Except.isOk, Except.toBool]

/-! ## Theorems: lock key (C2) -/

/-- C2 counterexample: the lock key is not a pure function of the user id —
the same user at timestamps 100 and 101 gets two different keys — and a
second initiate call for the same user while the first lock key is still
held proceeds to a successful result instead of failing fast with a
payment-in-progress error. -/
theorem lockKey_counterexample :
    lockKey 1 100 ≠ lockKey 1 101 ∧
    (processPayment { userId := 1, merchantId := 2, amount := 100 } 101 okOracles
      { txns := [], nextId := 1, locks := [lockKey 1 100], payCalls := [], paidOk := [],
        wallets := [], balCacheUsers := [] }).1 =
      .ok { transactionId := 1, checkoutRequestId := "ws_1", paymentRequest := "lnbc1" } := by
  exact ⟨by decide, rfl⟩

/-- C2 amended: the lock key embeds the per-call timestamp
(payment:{userId}:{Date.now()}), so two initiate calls for the same user
share a lock key only when their timestamps render identically; moreover the
source discards the result of acquire, so a concurrent second call never
fails with a payment-in-progress error — the only error processPayment ever
raises is the PaymentError from a rail failure. -/
theorem lockKey_per_call (u t1 t2 : Nat) (d : PaymentDetails) (now : Nat)
    (o : RailOracles) (s : SysState) :
    (lockKey u t1 = lockKey u t2 → toString t1 = toString t2) ∧
    (∀ e : AppError, (processPayment d now o s).1 = .error e →
      e = .paymentError "Payment processing failed") := by
  constructor
  · intro h
    have hdata := congrArg String.data h
    simp only [lockKey, String.data_append] at hdata
    exact String.ext (List.append_cancel_left hdata)
  · intro e h
    rcases hg : o.generateInvoice with e1 | inv <;>
      rcases hs : o.stkPush with e2 | stk <;>
        simp [processPayment, hg, hs] at h <;>
          exact h.symm

/-- C2 amended witness: at user 1, timestamps 100 and 100, and an initiate
run whose invoice creation fails. -/
theorem lockKey_per_call_witness :
    toString (100 : Nat) = toString (100 : Nat) ∧
    AppError.paymentError "Payment processing failed" =
      .paymentError "Payment processing failed" :=
  ⟨(lockKey_per_call 1 100 100 { userId := 1, merchantId := 2, amount := 100 } 100
      invoiceFailOracles emptyState).1 rfl,
   ((lockKey_per_call 1 100 100 { userId := 1, merchantId := 2, amount := 100 } 100
      invoiceFailOracles emptyState).2
      (.paymentError "Payment processing failed") rfl).symm⟩

/-! ## Theorems: repeated callback (C1) -/

/-- C1 (code evaluated at the failing input): redelivering the success
callback for checkout id ws_123 to a state whose transaction is already
COMPLETED makes a second payInvoice call on the same stored invoice (the
payCalls log grows from one entry to two) — handleMPESACallback performs no
terminal-state check, so the repeat delivery is not a no-op. -/
theorem repeated_callback_pays_again :
    (handleMPESACallback
      { resultCode := 0, checkoutRequestID := "ws_123", resultDesc := "Success" }
      (.ok ()) completedState).payCalls = [some "lnbc1", some "lnbc1"] ∧
    (handleMPESACallback
      { resultCode := 0, checkoutRequestID := "ws_123", resultDesc := "Success" }
      (.ok ()) completedState).paidOk = [some "lnbc1", some "lnbc1"] := by
  exact ⟨rfl, rfl⟩

/-! ## Helper lemmas on the system state -/

theorem findTxnById_mem (s : SysState) (id0 : Nat) (t : Txn)
    (h : findTxnById s id0 = some t) : t ∈ s.txns ∧ t.id = id0 := by
  refine ⟨List.mem_of_find?_eq_some h, ?_⟩
  simpa using List.find?_some h

theorem findTxnByCheckout_mem (s : SysState) (cid : String) (t : Txn)
    (h : findTxnByCheckout s cid = some t) :
    t ∈ s.txns ∧ t.mpesaCheckoutRequestId = some cid := by
  refine ⟨List.mem_of_find?_eq_some h, ?_⟩
  simpa using List.find?_some h

theorem find?_map_update (l : List Txn) (id0 : Nat) (f : Txn → Txn)
    (hid : ∀ t, (f t).id = t.id) :
    (l.map (fun t => if t.id = id0 then f t else t)).find? (fun t => t.id == id0) =
      (l.find? (fun t => t.id == id0)).map (fun t => if t.id = id0 then f t else t) := by
  have hpred : ((fun t => t.id == id0) ∘ (fun t => if t.id = id0 then f t else t)) =
      (fun t : Txn => t.id == id0) := by
    funext t
    by_cases hh : t.id = id0 <;> simp [hh, hid]
  rw [List.find?_map, hpred]

theorem findTxnById_updateTxn (s : SysState) (id0 : Nat) (f : Txn → Txn)
    (hid : ∀ t, (f t).id = t.id) (t : Txn) (h : findTxnById s id0 = some t) :
    findTxnById (updateTxn s id0 f) id0 = some (f t) := by
  have hmem := findTxnById_mem s id0 t h
  unfold findTxnById updateTxn at *
  rw [find?_map_update _ _ _ hid, h]
  simp [hmem.2]

theorem find?_map_set (l : List (Nat × Rat)) (u : Nat) (nb : Rat)
    (h : (l.find? (fun p => p.1 == u)).isSome) :
    (l.map (fun p => if p.1 = u then (u, nb) else p)).find? (fun p => p.1 == u) =
      some (u, nb) := by
  have hpred : ((fun p : Nat × Rat => p.1 == u) ∘ (fun p => if p.1 = u then (u, nb) else p)) =
      (fun p : Nat × Rat => p.1 == u) := by
    funext q
    by_cases hh : q.1 = u <;> simp [hh]
  rw [List.find?_map, hpred]
  rcases hf : l.find? (fun p => p.1 == u) with _ | q
  · rw [hf] at h
    simp at h
  · have hq : q.1 = u := by simpa using List.find?_some hf
    rw [hf]
    simp [hq]

theorem walletLookup_walletSet (s : SysState) (u : Nat) (nb : Rat)
    (h : (walletLookup s u).isSome) :
    walletLookup (walletSet s u nb) u = some nb := by
  have h2 : (s.wallets.find? (fun p => p.1 == u)).isSome := by
    unfold walletLookup at h
    rcases hf : s.wallets.find? (fun p => p.1 == u) with _ | p
    · rw [hf] at h
      simp at h
    · rw [hf]
      rfl
  unfold walletLookup walletSet
  rw [find?_map_set _ _ nb h2]
  rfl

/-! ## Theorems: invoice-failure path (C5) -/

/-- C5: when Lightning invoice creation fails during initiation,
processPayment raises the PaymentError, the just-created transaction is
FAILED with the originating error message persisted, and the lock key this
call acquired is released — and it is released for every oracle outcome,
i.e. on every failure and success path. -/
theorem invoice_failure_path (d : PaymentDetails) (now : Nat) (e : String)
    (o : RailOracles) (s : SysState)
    (hfresh : lockKey d.userId now ∉ s.locks)
    (hinv : o.generateInvoice = .error e) :
    (processPayment d now o s).1 = .error (.paymentError "Payment processing failed") ∧
    (∃ t ∈ (processPayment d now o s).2.txns,
      t.id = s.nextId ∧ t.status = .failed ∧ t.errorMessage = some e) ∧
    (∀ o2 : RailOracles, lockKey d.userId now ∉ (processPayment d now o2 s).2.locks) := by
  have hacq : lockAcquire (lockKey d.userId now) s =
      (true, { s with locks := lockKey d.userId now :: s.locks }) := by
    simp [lockAcquire, hfresh]
  refine ⟨?_, ?_, ?_⟩
  · simp [processPayment, hacq, hinv]
  · refine ⟨setFailed e (newTxn s.nextId d.userId d.merchantId d.amount),
      ?_, by simp [setFailed, newTxn], rfl, rfl⟩
    simp only [processPayment, hacq, hinv, lockRelease, updateTxn]
    simp [setFailed, newTxn]
  · intro o2
    rcases hg : o2.generateInvoice with e1 | inv <;>
      rcases hs : o2.stkPush with e2 | stk <;>
        simp [processPayment, hacq, hg, hs, lockRelease, updateTxn,
          List.erase_cons_head, hfresh]

/-- C5 witness: a concrete invoice-creation failure from emptyState. -/
theorem invoice_failure_path_witness :
    (processPayment { userId := 7, merchantId := 2, amount := 100 } 5
        invoiceFailOracles emptyState).1 =
      .error (.paymentError "Payment processing failed") ∧
    (∃ t ∈ (processPayment { userId := 7, merchantId := 2, amount := 100 } 5
        invoiceFailOracles emptyState).2.txns,
      t.id = emptyState.nextId ∧ t.status = .failed ∧
      t.errorMessage = some "Lightning network error") ∧
    (∀ o2 : RailOracles, lockKey 7 5 ∉
      (processPayment { userId := 7, merchantId := 2, amount := 100 } 5 o2
        emptyState).2.locks) :=
  invoice_failure_path { userId := 7, merchantId := 2, amount := 100 } 5
    "Lightning network error" invoiceFailOracles emptyState
    (by simp [emptyState]) rfl

/-! ## Theorems: cancellation (C9) -/

/-- C9: cancel succeeds only on a PENDING transaction, transitioning it to
CANCELLED with metadata recording who cancelled and when; for a transaction
owned by the caller in any other status it yields the validation failure and
leaves the state entirely unchanged. -/
theorem cancel_only_pending (transactionId userId now : Nat) (s : SysState)
    (t : Txn) (hfind : findTxnById s transactionId = some t)
    (hown : t.userId = userId) :
    (t.status = .pending →
      (cancelTransaction transactionId userId now s).1 =
        .ok (cancelledTxn t userId now) ∧
      findTxnById (cancelTransaction transactionId userId now s).2 transactionId =
        some (cancelledTxn t userId now)) ∧
    (t.status ≠ .pending →
      (cancelTransaction transactionId userId now s).1 =
        .validationFailed "Transaction cannot be cancelled" ∧
      (cancelTransaction transactionId userId now s).2 = s) := by
  have hps : parseStatus "cancelled" = some TxStatus.cancelled := rfl
  constructor
  · intro hp
    have hu : updateTransactionStatus transactionId "cancelled"
        (cancelMeta userId now) s =
        (.ok (cancelledTxn t userId now),
         cacheDel (updateTxn s transactionId
           (setStatusMeta .cancelled (cancelMeta userId now))) t.userId) := by
      simp only [updateTransactionStatus, hps, hfind]
      rw [if_neg (by decide : ¬ ("cancelled" = "completed"))]
      rfl
    have hne1 : ¬ (t.userId ≠ userId) := by simp [hown]
    have hne2 : ¬ (t.status ≠ TxStatus.pending) := by simp [hp]
    have hroute : cancelTransaction transactionId userId now s =
        (.ok (cancelledTxn t userId now),
         cacheDel (updateTxn s transactionId
           (setStatusMeta .cancelled (cancelMeta userId now))) t.userId) := by
      simp only [cancelTransaction, hfind]
      rw [if_neg hne1, if_neg hne2]
      simp only [cancelMeta] at hu
      rw [hu]
      rfl
    refine ⟨by rw [hroute], ?_⟩
    rw [hroute]
    exact findTxnById_updateTxn s transactionId
      (setStatusMeta .cancelled (cancelMeta userId now)) (fun u => rfl) t hfind
  · intro hp
    constructor <;>
      simp [cancelTransaction, hfind, hown, hp]

/-- C9 witness: cancelling the pending transaction of pendingState as user 7
at time 99, and failing to cancel the processing transaction of
processingState. -/
theorem cancel_only_pending_witness :
    (cancelTransaction 1 7 99 pendingState).1 = .ok (cancelledTxn pendingTxn 7 99) ∧
    (cancelTransaction 1 7 99 processingState).1 =
      .validationFailed "Transaction cannot be cancelled" ∧
    (cancelTransaction 1 7 99 processingState).2 = processingState :=
  ⟨((cancel_only_pending 1 7 99 pendingState pendingTxn rfl rfl).1 rfl).1,
   ((cancel_only_pending 1 7 99 processingState processingTxn rfl rfl).2 (by decide)).1,
   ((cancel_only_pending 1 7 99 processingState processingTxn rfl rfl).2 (by decide)).2⟩

/-! ## Theorems: balance effect of COMPLETED (C6) -/

/-- C6 counterexample: the handleMPESACallback completion path transitions
the ws_123 transaction of processingState to COMPLETED yet leaves the
wallets table and the cached-balance entries exactly as they were — a
transition to COMPLETED with no wallet credit and no cache invalidation. -/
theorem callback_completion_no_credit :
    (∃ t, findTxnById (handleMPESACallback
        { resultCode := 0, checkoutRequestID := "ws_123", resultDesc := "Success" }
        (.ok ()) processingState) 1 = some t ∧ t.status = .completed) ∧
    (handleMPESACallback
        { resultCode := 0, checkoutRequestID := "ws_123", resultDesc := "Success" }
        (.ok ()) processingState).wallets = [(7, 50)] ∧
    (handleMPESACallback
        { resultCode := 0, checkoutRequestID := "ws_123", resultDesc := "Success" }
        (.ok ()) processingState).balCacheUsers = [7] := by
  exact ⟨⟨completedTxn, rfl, rfl⟩, rfl, rfl⟩

/-- C6 amended: transitions to COMPLETED made through the payment service
(updateTransactionStatus) credit the owning user's wallet by the transaction
amount and invalidate that user's cached balance; updateTransactionStatus
with any other status never mutates a balance; and the orchestrator callback
path (handleMPESACallback) never mutates a balance at all, including on its
own COMPLETED transition. -/
theorem completed_credits_only_via_service (transactionId : Nat)
    (md : List (String × String)) (s : SysState) (t : Txn) (b : Rat)
    (hfind : findTxnById s transactionId = some t)
    (hw : walletLookup s t.userId = some b) :
    walletLookup (updateTransactionStatus transactionId "completed" md s).2 t.userId
        = some (b + t.amount) ∧
    t.userId ∉ (updateTransactionStatus transactionId "completed" md s).2.balCacheUsers ∧
    (∀ status : String, status ≠ "completed" →
      (updateTransactionStatus transactionId status md s).2.wallets = s.wallets) ∧
    (∀ (cb : CallbackData) (po : Except String Unit) (s2 : SysState),
      (handleMPESACallback cb po s2).wallets = s2.wallets) := by
  have hps : parseStatus "completed" = some TxStatus.completed := rfl
  have hub : updateUserBalance t.userId t.amount "credit"
      (updateTxn s transactionId (setStatusMeta TxStatus.completed md)) =
      .ok (walletSet (updateTxn s transactionId (setStatusMeta TxStatus.completed md))
        t.userId (b + t.amount)) := by
    have hlook : walletLookup (updateTxn s transactionId
        (setStatusMeta TxStatus.completed md)) t.userId = some b := hw
    simp [updateUserBalance, hlook]
  have hmain : (updateTransactionStatus transactionId "completed" md s).2 =
      cacheDel (walletSet (updateTxn s transactionId
        (setStatusMeta TxStatus.completed md)) t.userId (b + t.amount)) t.userId := by
    simp [updateTransactionStatus, hps, hfind, hub]
  refine ⟨?_, ?_, ?_, ?_⟩
  · rw [hmain]
    have hls : walletLookup (walletSet (updateTxn s transactionId
        (setStatusMeta TxStatus.completed md)) t.userId (b + t.amount)) t.userId =
        some (b + t.amount) := by
      apply walletLookup_walletSet
      rw [show walletLookup (updateTxn s transactionId
        (setStatusMeta TxStatus.completed md)) t.userId = some b from hw]
      rfl
    exact hls
  · rw [hmain]
    simp [cacheDel, List.mem_filter]
  · intro status hne
    rcases hps2 : parseStatus status with _ | st0
    · simp [updateTransactionStatus, hps2]
    · rcases hfind2 : findTxnById s transactionId with _ | t2
      · simp [updateTransactionStatus, hps2, hfind2]
      · simp [updateTransactionStatus, hps2, hfind2, if_neg hne, cacheDel, updateTxn]
  · intro cb po s2
    rcases hf : findTxnByCheckout s2 cb.checkoutRequestID with _ | t2
    · simp [handleMPESACallback, hf]
    · by_cases hrc : cb.resultCode = 0
      · rcases po with e | u <;> simp [handleMPESACallback, hf, hrc, updateTxn]
      · simp [handleMPESACallback, hf, hrc, updateTxn]

/-- C6 amended witness: completing transaction 1 of processingState credits
wallet 7 from 50 to 150 and drops its cached balance entry. -/
theorem completed_credits_witness :
    walletLookup (updateTransactionStatus 1 "completed" [] processingState).2 7 =
      some 150 ∧
    7 ∉ (updateTransactionStatus 1 "completed" [] processingState).2.balCacheUsers := by
  have h := completed_credits_only_via_service 1 [] processingState processingTxn 50
    rfl rfl
  refine ⟨?_, ?_⟩
  · have h1 := h.1
    norm_num [processingTxn] at h1
    exact h1
  · have h2 := h.2.1
    simpa [processingTxn] using h2

/-! ## Theorems: state-machine legality (C4) -/

theorem TxnInv_append_paidOk {pd l : List (Option String)} {t : Txn}
    (h : TxnInv pd t) : TxnInv (pd ++ l) t := by
  refine ⟨h.1, fun hc => ⟨(h.2.1 hc).1, List.mem_append_left _ (h.2.1 hc).2⟩, h.2.2⟩

theorem TxnInv_newTxn (pd : List (Option String)) (id0 u m : Nat) (a : Rat) :
    TxnInv pd (newTxn id0 u m a) := by
  refine ⟨?_, ?_, ?_⟩ <;> intro hc <;> simp [newTxn] at hc

theorem TxnInv_failed (pd : List (Option String)) (t0 : Txn) (h : TxnInv pd t0)
    (e : String) : TxnInv pd (setFailed e t0) := by
  refine ⟨?_, ?_, ?_⟩
  · intro hc
    simp [setFailed] at hc
  · intro hc
    simp [setFailed] at hc
  · intro hc
    exact h.2.2 hc

theorem TxnInv_cancelled (pd : List (Option String)) (t0 : Txn) (h : TxnInv pd t0)
    (md : List (String × String)) : TxnInv pd (setStatusMeta .cancelled md t0) := by
  refine ⟨?_, ?_, ?_⟩
  · intro hc
    simp [setStatusMeta] at hc
  · intro hc
    simp [setStatusMeta] at hc
  · intro hc
    exact h.2.2 hc

theorem txn_id_unique {l : List Txn} (hp : l.Pairwise (fun a b => a.id ≠ b.id))
    {t1 t2 : Txn} (h1 : t1 ∈ l) (h2 : t2 ∈ l) (he : t1.id = t2.id) : t1 = t2 := by
  induction l with
  | nil => cases h1
  | cons hd tl ih =>
      rcases List.pairwise_cons.mp hp with ⟨hhd, htl⟩
      rcases List.mem_cons.mp h1 with e1 | m1
      · rcases List.mem_cons.mp h2 with e2 | m2
        · rw [e1, e2]
        · exfalso
          apply hhd t2 m2
          rw [← e1]
          exact he
      · rcases List.mem_cons.mp h2 with e2 | m2
        · exfalso
          apply hhd t1 m1
          rw [← e2]
          exact he.symm
        · exact ih htl m1 m2

theorem OrchInv_lockAcquire (key : String) (s : SysState) (h : OrchInv s) :
    OrchInv (lockAcquire key s).2 := by
  by_cases hk : key ∈ s.locks
  · rw [lockAcquire, if_pos hk]
    exact h
  · rw [lockAcquire, if_neg hk]
    exact h

theorem OrchInv_lockRelease (key : String) (b : Bool) (s : SysState) (h : OrchInv s) :
    OrchInv (lockRelease key b s) := by
  cases b
  · exact h
  · exact h

theorem OrchInv_append_new (s : SysState) (h : OrchInv s) (t : Txn)
    (htid : t.id = s.nextId) (hti : TxnInv s.paidOk t) :
    OrchInv { s with txns := s.txns ++ [t], nextId := s.nextId + 1 } := by
  obtain ⟨hids, hpw, hinv⟩ := h
  refine ⟨?_, ?_, ?_⟩
  · intro t0 ht0
    rcases List.mem_append.mp ht0 with ht0 | ht0
    · exact Nat.lt_succ_of_lt (hids t0 ht0)
    · rw [List.mem_singleton.mp ht0, htid]
      exact Nat.lt_succ_self _
  · rw [List.pairwise_append]
    refine ⟨hpw, List.pairwise_singleton _ _, ?_⟩
    intro a ha b hb
    rw [List.mem_singleton.mp hb, htid]
    exact Nat.ne_of_lt (hids a ha)
  · intro t0 ht0
    rcases List.mem_append.mp ht0 with ht0 | ht0
    · exact hinv t0 ht0
    · rw [List.mem_singleton.mp ht0]
      exact hti

theorem OrchInv_updateTxn (s : SysState) (h : OrchInv s) (id0 : Nat) (f : Txn → Txn)
    (hid : ∀ t, (f t).id = t.id)
    (hpres : ∀ t ∈ s.txns, t.id = id0 → TxnInv s.paidOk (f t)) :
    OrchInv (updateTxn s id0 f) := by
  obtain ⟨hids, hpw, hinv⟩ := h
  have hgid : ∀ t : Txn, (if t.id = id0 then f t else t).id = t.id := by
    intro t
    by_cases hc : t.id = id0 <;> simp [hc, hid]
  refine ⟨?_, ?_, ?_⟩
  · intro t1 ht1
    rcases List.mem_map.mp ht1 with ⟨t0, ht0, heq⟩
    rw [← heq, hgid]
    exact hids t0 ht0
  · show (s.txns.map (fun t => if t.id = id0 then f t else t)).Pairwise
      (fun a b => a.id ≠ b.id)
    rw [List.pairwise_map]
    exact hpw.imp (fun hab => by rw [hgid, hgid]; exact hab)
  · intro t1 ht1
    rcases List.mem_map.mp ht1 with ⟨t0, ht0, heq⟩
    by_cases hc : t0.id = id0
    · rw [← heq, if_pos hc]
      exact hpres t0 ht0 hc
    · rw [← heq, if_neg hc]
      exact hinv t0 ht0

theorem mem_appended_update (l : List Txn) (tNew : Txn) (nid : Nat) (f : Txn → Txn)
    (hids : ∀ t ∈ l, t.id < nid) (hNew : tNew.id = nid)
    (t0 : Txn) (ht0 : t0 ∈ (l ++ [tNew]).map (fun t => if t.id = nid then f t else t))
    (hid0 : t0.id = nid) : t0 = f tNew := by
  rcases List.mem_map.mp ht0 with ⟨t1, ht1, heq⟩
  rcases List.mem_append.mp ht1 with ht1 | ht1
  · have hlt := hids t1 ht1
    by_cases hc : t1.id = nid
    · rw [hc] at hlt
      exact absurd hlt (lt_irrefl _)
    · rw [if_neg hc] at heq
      rw [← heq] at hid0
      exact absurd hid0 hc
  · rw [List.mem_singleton.mp ht1] at heq
    rw [if_pos hNew] at heq
    exact heq.symm

theorem createPayment_inv (u m : Nat) (a : Rat) (act : Bool) (s : SysState)
    (h : OrchInv s) : OrchInv (createPayment u m a act s).2 := by
  by_cases ha : a ≤ 0
  · rw [createPayment, if_pos ha]
    exact h
  · by_cases hact : act
    · rw [createPayment, if_neg ha, if_neg (by simpa using hact)]
      exact OrchInv_append_new s h _ rfl (TxnInv_newTxn _ _ _ _ _)
    · rw [createPayment, if_neg ha, if_pos (by simpa using hact)]
      exact h

theorem TxnInv_setInvoice_newTxn (pd : List (Option String)) (id0 u m : Nat) (a : Rat)
    (pr ph : String) : TxnInv pd (setInvoice pr ph (newTxn id0 u m a)) := by
  refine ⟨?_, ?_, ?_⟩ <;> intro hc <;> simp [setInvoice, newTxn] at hc ⊢

theorem TxnInv_setProcessing_setInvoice_newTxn (pd : List (Option String))
    (id0 u m : Nat) (a : Rat) (pr ph cid : String) :
    TxnInv pd (setProcessing cid (setInvoice pr ph (newTxn id0 u m a))) := by
  refine ⟨?_, ?_, ?_⟩
  · intro _
    exact ⟨by simp [setProcessing, setInvoice, newTxn], by simp [setProcessing]⟩
  · intro hc
    simp [setProcessing, setInvoice, newTxn] at hc
  · intro _
    simp [setProcessing, setInvoice, newTxn]

theorem processPayment_inv (d : PaymentDetails) (now : Nat) (o : RailOracles)
    (s : SysState) (h : OrchInv s) : OrchInv (processPayment d now o s).2 := by
  have h1 : OrchInv (lockAcquire (lockKey d.userId now) s).2 :=
    OrchInv_lockAcquire _ _ h
  have h2 : OrchInv { (lockAcquire (lockKey d.userId now) s).2 with
      txns := (lockAcquire (lockKey d.userId now) s).2.txns ++
        [newTxn (lockAcquire (lockKey d.userId now) s).2.nextId d.userId d.merchantId
          d.amount],
      nextId := (lockAcquire (lockKey d.userId now) s).2.nextId + 1 } :=
    OrchInv_append_new _ h1 _ rfl (TxnInv_newTxn _ _ _ _ _)
  rcases hg : o.generateInvoice with e | inv
  · simp only [processPayment, hg]
    exact OrchInv_lockRelease _ _ _
      (OrchInv_updateTxn _ h2 _ _ (fun t => rfl)
        (fun t0 ht0 _ => TxnInv_failed _ t0 (h2.2.2 t0 ht0) e))
  · have hpresB : ∀ t0 ∈ ({ (lockAcquire (lockKey d.userId now) s).2 with
        txns := (lockAcquire (lockKey d.userId now) s).2.txns ++
          [newTxn (lockAcquire (lockKey d.userId now) s).2.nextId d.userId d.merchantId
            d.amount],
        nextId := (lockAcquire (lockKey d.userId now) s).2.nextId + 1 } : SysState).txns,
        t0.id = (newTxn (lockAcquire (lockKey d.userId now) s).2.nextId d.userId
          d.merchantId d.amount).id →
        TxnInv ((lockAcquire (lockKey d.userId now) s).2.paidOk)
          (setInvoice inv.paymentRequest inv.paymentHash t0) := by
      intro t0 ht0 hid0
      rcases List.mem_append.mp ht0 with hm | hm
      · have hlt := h1.1 t0 hm
        simp only [newTxn] at hid0
        rw [hid0] at hlt
        exact absurd hlt (lt_irrefl _)
      · rw [List.mem_singleton.mp hm]
        exact TxnInv_setInvoice_newTxn _ _ _ _ _ _ _
    have h3 : OrchInv (updateTxn
        { (lockAcquire (lockKey d.userId now) s).2 with
          txns := (lockAcquire (lockKey d.userId now) s).2.txns ++
            [newTxn (lockAcquire (lockKey d.userId now) s).2.nextId d.userId d.merchantId
              d.amount],
          nextId := (lockAcquire (lockKey d.userId now) s).2.nextId + 1 }
        (newTxn (lockAcquire (lockKey d.userId now) s).2.nextId d.userId d.merchantId
          d.amount).id
        (setInvoice inv.paymentRequest inv.paymentHash)) :=
      OrchInv_updateTxn _ h2 _ _ (fun t => rfl) hpresB
    rcases hs : o.stkPush with e2 | stk
    · simp only [processPayment, hg, hs]
      exact OrchInv_lockRelease _ _ _
        (OrchInv_updateTxn _ h3 _ _ (fun t => rfl)
          (fun t0 ht0 _ => TxnInv_failed _ t0 (h3.2.2 t0 ht0) e2))
    · simp only [processPayment, hg, hs]
      refine OrchInv_lockRelease _ _ _ (OrchInv_updateTxn _ h3 _ _ (fun t => rfl) ?_)
      intro t0 ht0 hid0
      have ht0eq : t0 = setInvoice inv.paymentRequest inv.paymentHash
          (newTxn (lockAcquire (lockKey d.userId now) s).2.nextId d.userId d.merchantId
            d.amount) :=
        mem_appended_update
          (lockAcquire (lockKey d.userId now) s).2.txns
          (newTxn (lockAcquire (lockKey d.userId now) s).2.nextId d.userId d.merchantId
            d.amount)
          ((newTxn (lockAcquire (lockKey d.userId now) s).2.nextId d.userId d.merchantId
            d.amount).id)
          (setInvoice inv.paymentRequest inv.paymentHash)
          (fun t ht => h1.1 t ht) rfl t0 ht0 hid0
      rw [ht0eq]
      exact TxnInv_setProcessing_setInvoice_newTxn _ _ _ _ _ _ _ _

theorem handleMPESACallback_inv (cb : CallbackData) (po : Except String Unit)
    (s : SysState) (h : OrchInv s) : OrchInv (handleMPESACallback cb po s) := by
  rcases hf : findTxnByCheckout s cb.checkoutRequestID with _ | t
  · simp only [handleMPESACallback, hf]
    exact h
  · obtain ⟨htmem, htcid⟩ := findTxnByCheckout_mem s _ t hf
    by_cases hrc : cb.resultCode = 0
    · rcases po with e | uu
      · simp only [handleMPESACallback, hf, if_pos hrc]
        exact OrchInv_updateTxn _ h _ _ (fun t => rfl)
          (fun t0 ht0 _ => TxnInv_failed _ t0 (h.2.2 t0 ht0) e)
      · simp only [handleMPESACallback, hf, if_pos hrc]
        have hext : OrchInv { s with
            payCalls := s.payCalls ++ [t.lightningInvoice],
            paidOk := s.paidOk ++ [t.lightningInvoice] } :=
          ⟨h.1, h.2.1, fun t0 ht0 => TxnInv_append_paidOk (h.2.2 t0 ht0)⟩
        refine OrchInv_updateTxn _ hext _ _ (fun t => rfl) ?_
        intro t0 ht0 hid0
        have ht0t : t0 = t := txn_id_unique h.2.1 ht0 htmem hid0
        rw [ht0t]
        have hi3 : t.lightningInvoice.isSome :=
          (h.2.2 t htmem).2.2 (by rw [htcid]; rfl)
        refine ⟨?_, ?_, ?_⟩
        · intro hc
          simp [setCompleted] at hc
        · intro _
          exact ⟨hi3, List.mem_append_right _ (List.mem_singleton_self _)⟩
        · intro _
          exact hi3
    · simp only [handleMPESACallback, hf, if_neg hrc]
      exact OrchInv_updateTxn _ h _ _ (fun t => rfl)
        (fun t0 ht0 _ => TxnInv_failed _ t0 (h.2.2 t0 ht0) cb.resultDesc)

theorem updateTransactionStatus_cancelled_eq (tid : Nat) (md : List (String × String))
    (s : SysState) (t : Txn) (hfind : findTxnById s tid = some t) :
    updateTransactionStatus tid "cancelled" md s =
      (.ok (setStatusMeta .cancelled md t),
       cacheDel (updateTxn s tid (setStatusMeta .cancelled md)) t.userId) := by
  simp only [updateTransactionStatus,
    show parseStatus "cancelled" = some TxStatus.cancelled from rfl, hfind]
  rw [if_neg (by decide : ¬ ("cancelled" = "completed"))]

theorem cancelTransaction_inv (tid uid now : Nat) (s : SysState) (h : OrchInv s) :
    OrchInv (cancelTransaction tid uid now s).2 := by
  rcases hf : findTxnById s tid with _ | t
  · simp only [cancelTransaction, hf]
    exact h
  · by_cases h1 : t.userId ≠ uid
    · simp only [cancelTransaction, hf, if_pos h1]
      exact h
    · by_cases h2 : t.status ≠ TxStatus.pending
      · simp only [cancelTransaction, hf, if_neg h1, if_pos h2]
        exact h
      · simp only [cancelTransaction, hf, if_neg h1, if_neg h2,
          updateTransactionStatus_cancelled_eq tid _ s t hf]
        exact OrchInv_updateTxn _ h _ _ (fun t => rfl)
          (fun t0 ht0 _ => TxnInv_cancelled _ t0 (h.2.2 t0 ht0) _)

theorem applySysOp_preserves (op : SysOp) (s : SysState)
    (hop : op.isStatusUpdate = false) (h : OrchInv s) : OrchInv (applySysOp op s) := by
  cases op with
  | create u m a act => exact createPayment_inv u m a act s h
  | initiate d now o => exact processPayment_inv d now o s h
  | callback cb po => exact handleMPESACallback_inv cb po s h
  | cancel tid uid now => exact cancelTransaction_inv tid uid now s h
  | statusUpdate tid st md c im => simp [SysOp.isStatusUpdate] at hop

theorem applySysOps_preserve (ops : List SysOp) (s : SysState)
    (hops : ∀ op ∈ ops, op.isStatusUpdate = false) (h : OrchInv s) :
    OrchInv (applySysOps ops s) := by
  induction ops generalizing s with
  | nil => exact h
  | cons op ops ih =>
      exact ih (applySysOp op s)
        (fun o ho => hops o (List.mem_cons_of_mem _ ho))
        (applySysOp_preserves op s (hops op (List.mem_cons_self _ _)) h)

theorem lockRelease_txns (k : String) (b : Bool) (x : SysState) :
    (lockRelease k b x).txns = x.txns := by
  cases b <;> rfl

theorem lockAcquire_txns (k : String) (x : SysState) :
    (lockAcquire k x).2.txns = x.txns := by
  by_cases hk : k ∈ x.locks <;> simp [lockAcquire, hk]

theorem cancelled_src_chain (s' : SysState) (id0 : Nat) (f : Txn → Txn)
    (hid : ∀ t, (f t).id = t.id)
    (hstat : ∀ t, (f t).status = .cancelled → t.status = .cancelled)
    (t1 : Txn) (h1 : t1 ∈ (updateTxn s' id0 f).txns) (hc : t1.status = .cancelled) :
    ∃ t0 ∈ s'.txns, t0.id = t1.id ∧ t0.status = .cancelled := by
  rcases List.mem_map.mp h1 with ⟨t0, ht0, heq⟩
  by_cases hidc : t0.id = id0
  · rw [if_pos hidc] at heq
    refine ⟨t0, ht0, ?_, ?_⟩
    · rw [← heq, hid]
    · exact hstat t0 (by rw [heq]; exact hc)
  · rw [if_neg hidc] at heq
    exact ⟨t0, ht0, by rw [heq], by rw [heq]; exact hc⟩

theorem setFailed_not_cancelled (e : String) (t : Txn) :
    (setFailed e t).status = .cancelled → t.status = .cancelled := by
  intro hcc
  simp [setFailed] at hcc

theorem setInvoice_status (pr ph : String) (t : Txn) :
    (setInvoice pr ph t).status = .cancelled → t.status = .cancelled := fun hcc => hcc

theorem setProcessing_not_cancelled (cid : String) (t : Txn) :
    (setProcessing cid t).status = .cancelled → t.status = .cancelled := by
  intro hcc
  simp [setProcessing] at hcc

theorem setCompleted_not_cancelled (t : Txn) :
    (setCompleted t).status = .cancelled → t.status = .cancelled := by
  intro hcc
  simp [setCompleted] at hcc

theorem applySysOp_cancelled_src (op : SysOp) (s : SysState)
    (hop : op.isStatusUpdate = false) (h : OrchInv s)
    (t1 : Txn) (h1 : t1 ∈ (applySysOp op s).txns) (hc : t1.status = .cancelled) :
    ∃ t0 ∈ s.txns, t0.id = t1.id ∧ (t0.status = .cancelled ∨ t0.status = .pending) := by
  cases op with
  | create u m a act =>
      simp only [applySysOp] at h1
      by_cases ha : a ≤ 0
      · rw [createPayment, if_pos ha] at h1
        exact ⟨t1, h1, rfl, .inl hc⟩
      · by_cases hact : act
        · rw [createPayment, if_neg ha, if_neg (by simpa using hact)] at h1
          rcases List.mem_append.mp h1 with hm | hm
          · exact ⟨t1, hm, rfl, .inl hc⟩
          · rw [List.mem_singleton.mp hm] at hc
            simp [newTxn] at hc
        · rw [createPayment, if_neg ha, if_pos (by simpa using hact)] at h1
          exact ⟨t1, h1, rfl, .inl hc⟩
  | initiate d now o =>
      simp only [applySysOp] at h1
      have hfin : ∃ t0 ∈ s.txns, t0.id = t1.id ∧ t0.status = .cancelled := by
        rcases hg : o.generateInvoice with e | inv
        · simp only [processPayment, hg] at h1
          rw [lockRelease_txns] at h1
          rcases cancelled_src_chain _ _ (setFailed e) (fun t => rfl)
            (setFailed_not_cancelled e) t1 h1 hc with ⟨t0, ht0, hid, hcanc⟩
          rcases List.mem_append.mp ht0 with hm | hm
          · rw [lockAcquire_txns] at hm
            exact ⟨t0, hm, hid, hcanc⟩
          · rw [List.mem_singleton.mp hm] at hcanc
            simp [newTxn] at hcanc
        · rcases hs : o.stkPush with e2 | stk
          · simp only [processPayment, hg, hs] at h1
            rw [lockRelease_txns] at h1
            rcases cancelled_src_chain _ _ (setFailed e2) (fun t => rfl)
              (setFailed_not_cancelled e2) t1 h1 hc with ⟨t2, ht2, hid2, hcanc2⟩
            rcases cancelled_src_chain _ _ (setInvoice inv.paymentRequest inv.paymentHash)
              (fun t => rfl) (setInvoice_status inv.paymentRequest inv.paymentHash)
              t2 ht2 hcanc2 with ⟨t0, ht0, hid, hcanc⟩
            rcases List.mem_append.mp ht0 with hm | hm
            · rw [lockAcquire_txns] at hm
              exact ⟨t0, hm, hid.trans hid2, hcanc⟩
            · rw [List.mem_singleton.mp hm] at hcanc
              simp [newTxn] at hcanc
          · simp only [processPayment, hg, hs] at h1
            rw [lockRelease_txns] at h1
            rcases cancelled_src_chain _ _ (setProcessing stk.checkoutRequestID)
              (fun t => rfl) (setProcessing_not_cancelled stk.checkoutRequestID)
              t1 h1 hc with ⟨t2, ht2, hid2, hcanc2⟩
            rcases cancelled_src_chain _ _ (setInvoice inv.paymentRequest inv.paymentHash)
              (fun t => rfl) (setInvoice_status inv.paymentRequest inv.paymentHash)
              t2 ht2 hcanc2 with ⟨t0, ht0, hid, hcanc⟩
            rcases List.mem_append.mp ht0 with hm | hm
            · rw [lockAcquire_txns] at hm
              exact ⟨t0, hm, hid.trans hid2, hcanc⟩
            · rw [List.mem_singleton.mp hm] at hcanc
              simp [newTxn] at hcanc
      rcases hfin with ⟨t0, hm, hid, hcanc⟩
      exact ⟨t0, hm, hid, .inl hcanc⟩
  | callback cb po =>
      simp only [applySysOp] at h1
      rcases hf : findTxnByCheckout s cb.checkoutRequestID with _ | t
      · simp only [handleMPESACallback, hf] at h1
        exact ⟨t1, h1, rfl, .inl hc⟩
      · by_cases hrc : cb.resultCode = 0
        · rcases po with e | uu
          · simp only [handleMPESACallback, hf, if_pos hrc] at h1
            rcases cancelled_src_chain _ _ (setFailed e) (fun t => rfl)
              (setFailed_not_cancelled e) t1 h1 hc with ⟨t0, ht0, hid, hcanc⟩
            exact ⟨t0, ht0, hid, .inl hcanc⟩
          · simp only [handleMPESACallback, hf, if_pos hrc] at h1
            rcases cancelled_src_chain _ _ setCompleted (fun t => rfl)
              setCompleted_not_cancelled t1 h1 hc with ⟨t0, ht0, hid, hcanc⟩
            exact ⟨t0, ht0, hid, .inl hcanc⟩
        · simp only [handleMPESACallback, hf, if_neg hrc] at h1
          rcases cancelled_src_chain _ _ (setFailed cb.resultDesc) (fun t => rfl)
            (setFailed_not_cancelled cb.resultDesc)
            t1 h1 hc with ⟨t0, ht0, hid, hcanc⟩
          exact ⟨t0, ht0, hid, .inl hcanc⟩
  | cancel tid uid now =>
      simp only [applySysOp] at h1
      rcases hf : findTxnById s tid with _ | t
      · simp only [cancelTransaction, hf] at h1
        exact ⟨t1, h1, rfl, .inl hc⟩
      · obtain ⟨htmem, htid⟩ := findTxnById_mem s tid t hf
        by_cases hb1 : t.userId ≠ uid
        · simp only [cancelTransaction, hf, if_pos hb1] at h1
          exact ⟨t1, h1, rfl, .inl hc⟩
        · by_cases hb2 : t.status ≠ TxStatus.pending
          · simp only [cancelTransaction, hf, if_neg hb1, if_pos hb2] at h1
            exact ⟨t1, h1, rfl, .inl hc⟩
          · have hp : t.status = TxStatus.pending := not_not.mp hb2
            simp only [cancelTransaction, hf, if_neg hb1, if_neg hb2,
              updateTransactionStatus_cancelled_eq tid _ s t hf] at h1
            rcases List.mem_map.mp h1 with ⟨t0, ht0, heq⟩
            by_cases hidc : t0.id = tid
            · have ht0t : t0 = t :=
                txn_id_unique h.2.1 ht0 htmem (by rw [hidc, htid])
              rw [if_pos hidc] at heq
              refine ⟨t0, ht0, ?_, .inr (by rw [ht0t]; exact hp)⟩
              rw [← heq]
              rfl
            · rw [if_neg hidc] at heq
              exact ⟨t0, ht0, by rw [heq], .inl (by rw [heq]; exact hc)⟩
  | statusUpdate tid st md c im =>
      simp [SysOp.isStatusUpdate] at hop

/-- C4 counterexample: the generic status-update route breaks the claimed
state machine — from a reachable state (createPayment then the status-update
route applied to emptyState) transaction 1 is PROCESSING with no Lightning
invoice and no mobile-money session id attached. -/
theorem state_machine_counterexample :
    ∃ t, findTxnById (applySysOps
        [SysOp.create 7 2 100 true,
         SysOp.statusUpdate 1 "processing" [] 7 false]
        emptyState) 1 = some t ∧
      t.status = .processing ∧ t.lightningInvoice = none ∧
      t.mpesaCheckoutRequestId = none := by
  exact ⟨_, rfl, rfl, rfl, rfl⟩

/-- C4 amended: restricted to the transaction-mutating operations other than
the generic status-update route (createPayment, processPayment,
handleMPESACallback and the cancel route), every reachable state satisfies
the state-machine invariant — PROCESSING only with invoice and session id
attached, COMPLETED only after a successful Lightning payment of the stored
invoice — and a transaction is CANCELLED after a step only if it was already
CANCELLED or was PENDING before it; the status-update route violates these
(see the counterexample). -/
theorem state_machine_invariant (s : SysState) (hinv : OrchInv s) :
    (∀ ops : List SysOp, (∀ op ∈ ops, op.isStatusUpdate = false) →
      OrchInv (applySysOps ops s)) ∧
    (∀ op : SysOp, op.isStatusUpdate = false →
      ∀ t1 ∈ (applySysOp op s).txns, t1.status = .cancelled →
        ∃ t0 ∈ s.txns, t0.id = t1.id ∧
          (t0.status = .cancelled ∨ t0.status = .pending)) :=
  ⟨fun ops hops => applySysOps_preserve ops s hops hinv,
   fun op hop t1 h1 hc => applySysOp_cancelled_src op s hop hinv t1 h1 hc⟩

/-- C4 amended witness: from pendingState, the cancel operation yields a
state satisfying the invariant, and its cancelled transaction came from a
pending one. -/
theorem state_machine_invariant_witness :
    OrchInv (applySysOps [SysOp.cancel 1 7 99] pendingState) ∧
    (∃ t0 ∈ pendingState.txns, t0.id = (cancelledTxn pendingTxn 7 99).id ∧
      (t0.status = .cancelled ∨ t0.status = .pending)) := by
  have hpend : OrchInv pendingState := by
    refine ⟨?_, ?_, ?_⟩
    · intro t ht
      rw [show t = pendingTxn by simpa [pendingState] using ht]
      simp [pendingTxn, pendingState]
    · simp [pendingState]
    · intro t ht
      rw [show t = pendingTxn by simpa [pendingState] using ht]
      refine ⟨?_, ?_, ?_⟩ <;> intro hcc <;> simp [pendingTxn] at hcc
  have h := state_machine_invariant pendingState hpend
  exact ⟨h.1 [SysOp.cancel 1 7 99] (by decide),
    h.2 (SysOp.cancel 1 7 99) rfl (cancelledTxn pendingTxn 7 99) (by decide) (by decide)⟩

end Rada
